import Mathlib

/-!
Verification of the feed repository's normalization, loading, playback and
hash-routing logic, as a shallow embedding in Lean.

The embedding translates the JavaScript/TypeScript source functions into
executable Lean definitions:

* JS strings become `String`, JS `undefined`/`null` become `Option` values,
  and the JS `a || b` idiom (where `undefined`, `null` and `""` are falsy)
  is modelled by `jsOrStr` / `jsOrDefault` / `strTruthy`.
* JS object literals used as open string-keyed maps become association
  lists `List (String × String)`; property assignment (which overwrites an
  existing key in place, else appends, preserving insertion order) is
  modelled by `objSet`.
* `String.prototype.split` with a one-character separator is modelled by
  `jsSplitChar`, `String.prototype.trim` by `jsTrim`,
  `String.prototype.includes` by `jsIncludes`, and single-occurrence
  `String.prototype.replace` with a plain-string pattern by
  `jsReplaceFirst`.
* JS number-to-string rendering of a nonnegative integer is modelled by
  `natToDecimal`, and `parseInt(s, 10) || 0` on a canonical nonnegative
  decimal (or a missing value) by `parseIntOr0`.
* Code that can throw a `TypeError` is modelled in `Except`, and fetch
  outcomes are modelled as `Except` values describing either the parsed
  response body or the failure the promise rejected with.
-/

namespace Feed

/-- JS truthiness of an optional string value: `undefined` / `null` and the
empty string are falsy, every other string is truthy. -/
def strTruthy : Option String → Bool
  | none => false
  | some s => s ≠ ""

/-- Model of the JS expression `a || b` where `a` and `b` are strings that
may be `undefined`: returns `a` when `a` is truthy, else `b`. -/
def jsOrStr (a b : Option String) : Option String :=
  if strTruthy a then a else b

/-- Model of the JS expression `a || d` where `a` may be `undefined` and `d`
is a non-empty string literal default. -/
def jsOrDefault (a : Option String) (d : String) : String :=
  match a with
  | some s => if s = "" then d else s
  | none => d

/-- Characters treated as whitespace by the model of
`String.prototype.trim` (the source only ever trims around feed keys and
URLs, where these are the whitespace forms that occur). -/
def jsWhitespace (c : Char) : Bool :=
  c = ' ' || c = '\t' || c = '\n' || c = '\r'

/-- Model of `String.prototype.trim`. -/
def jsTrim (s : String) : String :=
  ⟨((s.data.dropWhile jsWhitespace).reverse.dropWhile jsWhitespace).reverse⟩

/-- Helper for the model of `String.prototype.split` with a one-character
separator: splits a character list, `acc` holding the reversed current
segment. -/
def splitCharAux (c : Char) : List Char → List Char → List (List Char)
  | [], acc => [acc.reverse]
  | x :: xs, acc =>
    if x = c then acc.reverse :: splitCharAux c xs []
    else splitCharAux c xs (x :: acc)

/-- Model of `String.prototype.split` with a one-character separator: the
source only splits on `'|'`, `'='`, `'\n'` and `','`.  Like JS `split`,
`jsSplitChar c "" = [""]` and separators at the ends produce empty
segments. -/
def jsSplitChar (c : Char) (s : String) : List String :=
  (splitCharAux c s.data []).map (fun l => ⟨l⟩)

/-- Index of the first occurrence of `pat` inside `s` (character lists), or
`none`.  The empty pattern occurs at index 0, as in JS. -/
def firstSubIdx (pat s : List Char) : Option Nat :=
  if pat.isPrefixOf s then some 0
  else
    match s with
    | [] => none
    | _ :: t => (firstSubIdx pat t).map (· + 1)

/-- Model of `String.prototype.includes`. -/
def jsIncludes (s pat : String) : Bool :=
  (firstSubIdx pat.data s.data).isSome

/-- Model of `String.prototype.replace` with a plain-string pattern, which
replaces only the first occurrence (or none). -/
def jsReplaceFirst (s pat rep : String) : String :=
  match firstSubIdx pat.data s.data with
  | none => s
  | some i => ⟨s.data.take i ++ rep.data ++ s.data.drop (i + pat.data.length)⟩

/-- Model of JS object property assignment `obj[k] = v` on an object viewed
as an ordered string-keyed map: an existing key keeps its position and gets
the new value, a new key is appended. -/
def objSet (m : List (String × String)) (k v : String) : List (String × String) :=
  if m.any (fun p => p.1 = k) then m.map (fun p => if p.1 = k then (k, v) else p)
  else m ++ [(k, v)]

/-- First value stored under key `k`, the lookup JS property access and
`URLSearchParams.get` perform. -/
def getParam (ps : List (String × String)) (k : String) : Option String :=
  match ps with
  | [] => none
  | (k', v) :: rest => if k' = k then some v else getParam rest k

/-- Decimal digits of `n`, least significant first; the first argument is
fuel making the recursion structural. -/
def decDigitsRev : Nat → Nat → List Nat
  | 0, _ => []
  | fuel + 1, n => if n = 0 then [] else n % 10 :: decDigitsRev fuel (n / 10)

/-- Character for a decimal digit. -/
def digitToChar (d : Nat) : Char := Char.ofNat (48 + d)

/-- Decimal digit for a character (inverse of `digitToChar` on `'0'`-`'9'`). -/
def charToDigit (c : Char) : Nat := c.toNat - 48

/-- Model of JS rendering a nonnegative integer as a decimal string (as in
the template `` `#feed=${...}&ref=${ref}` `` and
`` `Request failed with status code ${status}` ``). -/
def natToDecimal (n : Nat) : String :=
  if n = 0 then "0" else ⟨((decDigitsRev n n).reverse.map digitToChar)⟩

/-- Value of a canonical decimal string. -/
def parseDecimal (s : String) : Nat :=
  s.data.foldl (fun a c => a * 10 + charToDigit c) 0

/-- Model of `parseInt(params.get("ref"), 10) || 0` on a missing value or a
canonical nonnegative decimal: a missing parameter gives `NaN`, which
`|| 0` turns into 0. -/
def parseIntOr0 : Option String → Nat
  | none => 0
  | some s => parseDecimal s

/-! ### Round-trip facts about the decimal model -/

theorem charToDigit_digitToChar {d : Nat} (h : d < 10) :
    charToDigit (digitToChar d) = d := by
  interval_cases d <;> decide

theorem decDigitsRev_lt (fuel n : Nat) : ∀ d ∈ decDigitsRev fuel n, d < 10 := by
  induction fuel generalizing n with
  | zero => intro d hd; simp [decDigitsRev] at hd
  | succ fuel ih =>
    intro d hd
    by_cases hn : n = 0
    · simp [decDigitsRev, hn] at hd
    · simp only [decDigitsRev, if_neg hn, List.mem_cons] at hd
      rcases hd with h | h
      · omega
      · exact ih (n / 10) d h

theorem foldr_decDigitsRev (fuel n : Nat) (h : n ≤ fuel) :
    (decDigitsRev fuel n).foldr (fun d a => a * 10 + d) 0 = n := by
  induction fuel generalizing n with
  | zero => interval_cases n; simp [decDigitsRev]
  | succ fuel ih =>
    by_cases hn : n = 0
    · simp [decDigitsRev, hn]
    · have hdiv : n / 10 ≤ fuel := by omega
      simp only [decDigitsRev, if_neg hn, List.foldr_cons, ih (n / 10) hdiv]
      omega

theorem parseDecimal_natToDecimal (n : Nat) :
    parseDecimal (natToDecimal n) = n := by
  by_cases hn : n = 0
  · subst hn; decide
  · have hlist : (natToDecimal n).data = (decDigitsRev n n).reverse.map digitToChar := by
      simp [natToDecimal, hn]
    rw [parseDecimal, hlist, List.map_reverse, List.foldl_reverse, List.foldr_map]
    have hgen : ∀ l : List Nat, (∀ d ∈ l, d < 10) →
        l.foldr (fun d a => a * 10 + charToDigit (digitToChar d)) 0 =
          l.foldr (fun d a => a * 10 + d) 0 := by
      intro l hl
      induction l with
      | nil => rfl
      | cons d t iht =>
        simp only [List.foldr_cons,
          iht (fun x hx => hl x (List.mem_cons_of_mem d hx)),
          charToDigit_digitToChar (hl d (List.mem_cons_self d t))]
    rw [hgen (decDigitsRev n n) (decDigitsRev_lt n n)]
    exact foldr_decDigitsRev n n le_rfl

/-! ### C1: advance-next / advance-prev (Context.jsx `handleNext` /
`handlePrev`, both component variants, lines 369-383 and 1306-1320)

The playback cursor `currentMediaIndex` indexes the selected feed's item
list `selectedMediaList` (Context.jsx line 1446,
`setCurrentMedia(selectedMediaList[currentMediaIndex])`), but the advance
handlers wrap it modulo `mediaList.length`, the number of feed entries.
JS `%` on nonnegative operands agrees with `Int`'s `%` used here. -/

/-- `handleNext`: `setCurrentMediaIndex(prev => (prev + 1) % mediaList.length)`. -/
def handleNext (mediaListLength prevIndex : Int) : Int :=
  (prevIndex + 1) % mediaListLength

/-- `handlePrev`: `setCurrentMediaIndex(prev => (prev - 1 + mediaList.length) % mediaList.length)`. -/
def handlePrev (mediaListLength prevIndex : Int) : Int :=
  (prevIndex - 1 + mediaListLength) % mediaListLength

/-- C1: the claim asks that advance-next / advance-prev move the cursor by
±1 modulo the item count of the currently selected feed's item list.  The
code instead wraps modulo `mediaList.length`, the number of configured
feeds.  With 3 feeds and a selected item list of 5 items, advance-next at
item index 2 yields 0 where the claim requires (2 + 1) % 5 = 3, and
advance-prev at index 0 yields 2 where the claim requires 4; since the
cursor indexes the 5-element item list, the code's wrap-by-feed-count is a
slip against the spec's stated modulus. -/
theorem handleNext_wraps_by_feed_count :
    handleNext 3 2 = 0 ∧ handlePrev 3 0 = 2 ∧
    (2 + 1) % (5 : Int) = 3 ∧ (0 - 1 + 5) % (5 : Int) = 4 ∧
    handleNext 3 2 ≠ (2 + 1) % (5 : Int) ∧ handlePrev 3 0 ≠ (0 - 1 + 5) % (5 : Int) := by
  refine ⟨by decide, by decide, by decide, by decide, by decide, by decide⟩

/-! ### C2: synthetic error item and failure-cause messages
(Context.jsx `fetchMediaFromAPI` catch block, lines 1202-1223) -/

/-- The parts of a caught axios error the catch block reads:
`error.response.status` when a response arrived, and `error.message`. -/
structure JsError where
  status : Option Nat
  message : Option String
deriving DecidableEq, Repr

/-- A Context.jsx media item as produced by `fetchMediaFromAPI`: fields the
code assigns, `Option` where the source may leave them `undefined` or
`null`. -/
structure MediaItem where
  url : Option String
  text : String
  title : Option String
  isError : Bool := false
deriving DecidableEq, Repr

/-- The message classification of the catch block in `fetchMediaFromAPI`
(Context.jsx lines 1203-1215). -/
def classifyErrorMessage (e : JsError) : String :=
  match e.status with
  | some s =>
    if s = 429 then
      "NASA API rate limit exceeded (429). Please use your own API key for more requests. See https://api.nasa.gov/ for details."
    else if s = 400 then
      "Bad request (400): Please check your API key or feed URL."
    else
      "Request failed with status code " ++ natToDecimal s
  | none =>
    match e.message with
    | some m => m
    | none => "An unknown error occurred."

/-- The synthetic result the catch block returns (Context.jsx lines
1216-1223): a one-element list holding an error item. -/
def fetchMediaError (mediaTitle : String) (e : JsError) : List MediaItem :=
  [{ url := none
     text := "Error: " ++ classifyErrorMessage e
     title := some ("Failed to load " ++ mediaTitle)
     isError := true }]

/-- Strings that agree nowhere on their first four characters differ even
after appending to the longer prefix. -/
theorem append_ne_of_take_four (p t q : String) (hp : 4 ≤ p.data.length)
    (hq : p.data.take 4 ≠ q.data.take 4) : p ++ t ≠ q := by
  intro h
  apply hq
  have h2 := congrArg (fun s : String => s.data.take 4) h
  simpa [String.data_append, List.take_append_of_le_length hp] using h2

/-- C2: a failing fetch produces exactly one synthetic item with
`isError = true` and a `null` media URL, and the three failure causes are
given pairwise distinct messages: HTTP 429 and HTTP 400 each have a fixed
message, and any other HTTP status (as well as a response-less failure
without a message) yields the generic message, distinct from both. -/
theorem fetchMediaError_single_item_distinct_messages
    (mediaTitle : String) (e : JsError) (s : Nat) (h429 : s ≠ 429) (h400 : s ≠ 400) :
    (fetchMediaError mediaTitle e).length = 1 ∧
    (∀ item ∈ fetchMediaError mediaTitle e, item.isError = true ∧ item.url = none) ∧
    classifyErrorMessage ⟨some 429, none⟩ ≠ classifyErrorMessage ⟨some 400, none⟩ ∧
    classifyErrorMessage ⟨some s, none⟩ ≠ classifyErrorMessage ⟨some 429, none⟩ ∧
    classifyErrorMessage ⟨some s, none⟩ ≠ classifyErrorMessage ⟨some 400, none⟩ ∧
    classifyErrorMessage ⟨none, none⟩ ≠ classifyErrorMessage ⟨some 429, none⟩ ∧
    classifyErrorMessage ⟨none, none⟩ ≠ classifyErrorMessage ⟨some 400, none⟩ := by
  have hmsg : classifyErrorMessage ⟨some s, none⟩ =
      "Request failed with status code " ++ natToDecimal s := by
    simp [classifyErrorMessage, h429, h400]
  refine ⟨rfl, ?_, by decide, ?_, ?_, by decide, by decide⟩
  · intro item hitem
    simp only [fetchMediaError, List.mem_singleton] at hitem
    subst hitem
    exact ⟨rfl, rfl⟩
  · rw [hmsg]
    exact append_ne_of_take_four _ _ _ (by decide) (by decide)
  · rw [hmsg]
    exact append_ne_of_take_four _ _ _ (by decide) (by decide)

/-- C2 witness: the theorem instantiated at a 500-status failure of the
`nasa` feed. -/
theorem fetchMediaError_single_item_distinct_messages_witness :
    (fetchMediaError "nasa" ⟨some 500, none⟩).length = 1 ∧
    classifyErrorMessage ⟨some 500, none⟩ ≠ classifyErrorMessage ⟨some 429, none⟩ := by
  have h := fetchMediaError_single_item_distinct_messages "nasa" ⟨some 500, none⟩ 500
    (by decide) (by decide)
  exact ⟨h.1, h.2.2.2.1⟩

/-! ### C3: partial-failure aggregation
(part_000 `fetchFeeds` lines 111-161; Context.jsx `loadFeed` lines 1076-1092)

A per-URL fetch either resolves to a list of processed items or fails; the
TSX `fetchFeeds` catches a failing URL and returns `[]` for it, then
flattens all per-URL results (`results.flat()`).  The Context.jsx
`loadFeed` concatenates the per-URL results of `fetchMediaFromAPI`, whose
own catch turns a failing URL into the one-element `fetchMediaError`
list. -/

/-- Whether a per-URL outcome is a failure. -/
def isFailure {ε α : Type} (r : Except ε (List α)) : Bool :=
  match r with
  | .ok _ => false
  | .error _ => true

/-- The item lists of the successful outcomes, in order. -/
def okLists {ε α : Type} (results : List (Except ε (List α))) : List (List α) :=
  results.filterMap fun r =>
    match r with
    | .ok items => some items
    | .error _ => none

/-- part_000 `fetchFeeds`: the per-URL catch returns `[]` for a failing
URL, and the batch result is the flattening of all per-URL results. -/
def fetchFeedsAggregate {ε α : Type} (results : List (Except ε (List α))) : List α :=
  (results.map fun r =>
    match r with
    | .ok items => items
    | .error _ => []).flatten

/-- Context.jsx `loadFeed` over pipe-separated URLs: concatenates the
per-URL results of `fetchMediaFromAPI`, where a failing URL yields the
one-element `fetchMediaError` list. -/
def loadFeedAggregate (mediaTitle : String)
    (results : List (Except JsError (List MediaItem))) : List MediaItem :=
  (results.map fun r =>
    match r with
    | .ok items => items
    | .error e => fetchMediaError mediaTitle e).flatten

theorem fetchFeedsAggregate_eq_okLists {ε α : Type}
    (results : List (Except ε (List α))) :
    fetchFeedsAggregate results = (okLists results).flatten := by
  induction results with
  | nil => rfl
  | cons r rest ih =>
    cases r with
    | ok items => simp [fetchFeedsAggregate, okLists, List.filterMap_cons] at ih ⊢; exact ih
    | error e => simp [fetchFeedsAggregate, okLists, List.filterMap_cons] at ih ⊢; exact ih

theorem loadFeedAggregate_length (mediaTitle : String)
    (results : List (Except JsError (List MediaItem))) :
    (loadFeedAggregate mediaTitle results).length =
      ((okLists results).map List.length).sum + results.countP isFailure := by
  induction results with
  | nil => rfl
  | cons r rest ih =>
    cases r with
    | ok items =>
      simp [loadFeedAggregate, okLists, List.filterMap_cons, List.countP_cons, isFailure] at ih ⊢
      omega
    | error e =>
      simp [loadFeedAggregate, okLists, List.filterMap_cons, List.countP_cons, isFailure,
        fetchMediaError] at ih ⊢
      omega

/-- C3 counterexample: in the Context.jsx loader, a feed-key with two
pipe-separated URLs where the second URL fails aggregates 3 items — the 2
items of the successful URL plus one synthetic error item — not the 2 the
claim's "length equals the sum of the successes' lengths" requires. -/
theorem loadFeed_failing_url_adds_error_item :
    (loadFeedAggregate "nasa"
      [.ok [{ url := some "https://a.jpg", text := "a", title := some "A" },
            { url := some "https://b.jpg", text := "b", title := some "B" }],
       .error ⟨some 429, none⟩]).length = 3 ∧
    ((okLists
      [.ok [{ url := some "https://a.jpg", text := "a", title := some "A" },
            { url := some "https://b.jpg", text := "b", title := some "B" }],
       (.error ⟨some 429, none⟩ : Except JsError (List MediaItem))]).map List.length).sum = 2 ∧
    (3 : Nat) ≠ 2 := by
  refine ⟨by decide, by decide, by decide⟩

/-- C3 amended: in the TSX `fetchFeeds`, when exactly one of the N URLs
fails the aggregate is the concatenation of the N-1 successful URLs' item
lists, with length the sum of their lengths, and no sibling's items are
suppressed; in the Context.jsx `loadFeed`, the failing URL instead
contributes exactly one synthetic error item, so the aggregate length is
that sum plus one — in both, a failing URL never aborts the sibling
fetches. -/
theorem partial_failure_keeps_sibling_items {α : Type}
    (results : List (Except String (List α)))
    (_h1 : results.countP isFailure = 1)
    (mediaTitle : String) (cres : List (Except JsError (List MediaItem)))
    (h2 : cres.countP isFailure = 1) :
    fetchFeedsAggregate results = (okLists results).flatten ∧
    (fetchFeedsAggregate results).length = ((okLists results).map List.length).sum ∧
    (loadFeedAggregate mediaTitle cres).length =
      ((okLists cres).map List.length).sum + 1 := by
  refine ⟨fetchFeedsAggregate_eq_okLists results, ?_, ?_⟩
  · rw [fetchFeedsAggregate_eq_okLists results]
    simp [List.length_flatten]
  · rw [loadFeedAggregate_length mediaTitle cres, h2]

/-- C3 witness: two URLs with the second failing, in both loaders. -/
theorem partial_failure_keeps_sibling_items_witness :
    fetchFeedsAggregate [.ok ["x", "y"], (.error "boom" : Except String (List String))] =
      (okLists [.ok ["x", "y"], (.error "boom" : Except String (List String))]).flatten ∧
    (loadFeedAggregate "nasa" [.ok [], (.error ⟨some 400, none⟩ : Except JsError (List MediaItem))]).length =
      ((okLists [.ok [], (.error ⟨some 400, none⟩ : Except JsError (List MediaItem))]).map List.length).sum + 1 := by
  have h := partial_failure_keeps_sibling_items
    [.ok ["x", "y"], (.error "boom" : Except String (List String))] (by decide)
    "nasa" [.ok [], (.error ⟨some 400, none⟩ : Except JsError (List MediaItem))] (by decide)
  exact ⟨h.1, h.2.2⟩

/-! ### C4: adapters on items with missing optional fields
(part_000 `processFeedItem` lines 27-70 and the seeclickfix / bsky array
checks in `fetchFeeds`; Context.jsx `fetchMediaFromAPI` seeclickfix-311
case, lines 1141-1146) -/

/-- The fields of a raw upstream item that part_000 `processFeedItem`
reads; every one may be absent. -/
structure RawItem where
  title : Option String := none
  description : Option String := none
  url : Option String := none
  date : Option String := none
  summary : Option String := none
  html_url : Option String := none
  created_at : Option String := none
  explanation : Option String := none
  media_type : Option String := none
  content : Option String := none
  link : Option String := none
  pubDate : Option String := none
deriving DecidableEq, Repr

/-- A part_000 normalized `FeedItem` restricted to the fixed fields the
typed adapters assign. -/
structure FeedItem where
  title : Option String := none
  description : Option String := none
  url : Option String := none
  date : Option String := none
  media_type : Option String := none
  source : Option String := none
deriving DecidableEq, Repr

/-- part_000 `processFeedItem`, `'nasa'` case. -/
def processFeedItemNasa (item : RawItem) : FeedItem :=
  { title := item.title
    description := item.explanation
    url := item.url
    date := item.date
    media_type := item.media_type
    source := some "NASA APOD" }

/-- part_000 `processFeedItem`, `'seeclickfix'` case. -/
def processFeedItemSeeclickfix (item : RawItem) : FeedItem :=
  { title := jsOrStr item.summary item.title
    description := item.description
    url := jsOrStr item.html_url item.url
    date := jsOrStr item.created_at item.date
    source := some "SeeClickFix"
    media_type := some "text" }

/-- part_000 `processFeedItem`, `'bsky'` case. -/
def processFeedItemBsky (item : RawItem) : FeedItem :=
  { title := item.title
    description := jsOrStr item.content item.description
    url := jsOrStr item.link item.url
    date := jsOrStr item.pubDate item.date
    source := some "BlueSky"
    media_type := some "text" }

/-- A JS value at a place where the code expects an array: either an array
of raw items or any other shape. -/
inductive JsArr (α : Type) where
  | array (elems : List α)
  | notArray
deriving DecidableEq

/-- part_000 `fetchFeeds` seeclickfix case:
`Array.isArray(issues) ? issues.map(...) : []`. -/
def seeclickfixCaseItems (issues : JsArr RawItem) : List FeedItem :=
  match issues with
  | .array xs => xs.map processFeedItemSeeclickfix
  | .notArray => []

/-- part_000 `fetchFeeds` bsky case:
`Array.isArray(items) ? items.map(...) : []`. -/
def bskyCaseItems (items : JsArr RawItem) : List FeedItem :=
  match items with
  | .array xs => xs.map processFeedItemBsky
  | .notArray => []

/-- The `media` object of a SeeClickFix issue. -/
structure ScfMedia where
  image_full : Option String := none
  representative_image_url : Option String := none
deriving DecidableEq, Repr

/-- A SeeClickFix issue with the fields the code reads; `media` may be
absent. -/
structure ScfIssue where
  media : Option ScfMedia := none
  description : Option String := none
  summary : Option String := none
deriving DecidableEq, Repr

/-- Context.jsx seeclickfix-311 per-item mapping (lines 1142-1146):
`item.media.image_full || item.media.representative_image_url` dereferences
`item.media` unconditionally, so a missing `media` throws a `TypeError`
(modelled as `Except.error`). -/
def seeclickfix311Item (item : ScfIssue) : Except String MediaItem :=
  match item.media with
  | none => .error "TypeError: cannot read properties of undefined"
  | some m =>
    .ok { url := jsOrStr m.image_full m.representative_image_url
          text := jsOrDefault item.description "No description available"
          title := item.summary
          isError := false }

/-- Context.jsx seeclickfix-311 case over the whole `issues` array: the JS
`.map` callback throwing aborts the mapping (the surrounding catch then
replaces the feed by one error item). -/
def seeclickfix311Items (issues : List ScfIssue) : Except String (List MediaItem) :=
  issues.mapM seeclickfix311Item

/-- C4 counterexample: the Context.jsx civic-issue case applied to an issue
with no `media` field throws instead of producing a defaulted item; inside
a list, the throw aborts the sibling items too. -/
theorem seeclickfix311_throws_on_missing_media :
    seeclickfix311Item { media := none } =
      .error "TypeError: cannot read properties of undefined" ∧
    seeclickfix311Items
      [{ media := some { image_full := some "https://img.jpg" }, summary := some "pothole" },
       { media := none }] =
      .error "TypeError: cannot read properties of undefined" := by
  refine ⟨rfl, rfl⟩

/-- C4 amended: the TSX adapters (`processFeedItem`) never throw on an item
missing any or all optional fields — missing fields map to `undefined`
defaults and the fixed source labels — and a non-array body where an array
was expected yields a zero-length result; the Context.jsx seeclickfix-311
case, by contrast, only maps an issue without throwing when its `media`
field is present (then missing image fields map to a `null` media URL). -/
theorem adapters_default_missing_fields :
    processFeedItemSeeclickfix {} =
      { source := some "SeeClickFix", media_type := some "text" } ∧
    processFeedItemNasa {} = { source := some "NASA APOD" } ∧
    processFeedItemBsky {} = { source := some "BlueSky", media_type := some "text" } ∧
    seeclickfixCaseItems .notArray = [] ∧
    bskyCaseItems .notArray = [] ∧
    (∀ xs : List RawItem, (seeclickfixCaseItems (.array xs)).length = xs.length) ∧
    seeclickfix311Item { media := some {} } =
      .ok { url := none, text := "No description available", title := none, isError := false } := by
  refine ⟨by decide, by decide, by decide, rfl, rfl, ?_, rfl⟩
  intro xs
  simp [seeclickfixCaseItems]

/-! ### C5: the spec-string parser
(part_003 `buildFeedMap` lines 30-36; part_000 `fetchFeeds` lines 98-104) -/

/-- part_003 `buildFeedMap` on one pipe-segment: `entry.split('=')`
destructured as `[key, url]` (extra `=`-parts are ignored), accepted only
when both `key` and `url` are truthy, in which case both are trimmed. -/
def segKeyUrl (entry : String) : Option (String × String) :=
  match (jsSplitChar '=' entry)[0]?, (jsSplitChar '=' entry)[1]? with
  | some key, some url =>
    if key ≠ "" ∧ url ≠ "" then some (jsTrim key, jsTrim url) else none
  | _, _ => none

/-- The reduce body of part_003 `buildFeedMap` over the already-split
segments. -/
def buildFeedMapSegs (segs : List String) : List (String × String) :=
  segs.foldl
    (fun acc entry =>
      match segKeyUrl entry with
      | some (k, v) => objSet acc k v
      | none => acc) []

/-- part_003 `buildFeedMap`: split the spec string on `'|'` and fold the
accepted `key=url` segments into an ordered map. -/
def buildFeedMap (feedUrls : String) : List (String × String) :=
  buildFeedMapSegs (jsSplitChar '|' feedUrls)

/-- The non-empty pipe-segments of a spec string after trimming — the
segments the spec says the parser keeps. -/
def nonEmptySegments (s : String) : List String :=
  ((jsSplitChar '|' s).map jsTrim).filter (fun u => u ≠ "")

/-- part_003 / part_000 `detectFeedType`: source-kind detection by URL
substring match, in fixed priority order. -/
def detectFeedType (url : String) : String :=
  if jsIncludes url "api.nasa.gov" then "nasa"
  else if jsIncludes url "seeclickfix.com" then "seeclickfix"
  else if jsIncludes url "bsky.app" then "bsky"
  else if jsIncludes url "docs.google.com/spreadsheets" then "googlesheet"
  else "default"

/-- part_000 `processGoogleSheetUrl` (lines 80-92): pass through URLs
already in export form; otherwise extract the document id with
`/\/d\/(.*?)(\/|$)/` and rewrite to the canonical gviz CSV-export URL;
return unparseable URLs unchanged.  `sheetIdOf` models the regex: the
lazy group captures the characters between the first `"/d/"` and the next
`'/'` or the end of the string. -/
def sheetIdOf (url : String) : Option String :=
  match firstSubIdx "/d/".data url.data with
  | none => none
  | some i => some ⟨(url.data.drop (i + 3)).takeWhile (fun c => c ≠ '/')⟩

/-- part_000 `processGoogleSheetUrl`. -/
def processGoogleSheetUrl (url : String) : String :=
  if jsIncludes url "/pub?" || jsIncludes url "/gviz/tq?" then url
  else
    match sheetIdOf url with
    | some id =>
      if id ≠ "" then
        "https://docs.google.com/spreadsheets/d/" ++ id ++ "/gviz/tq?tqx=out:csv"
      else url
    | none => url

/-- part_000 `fetchFeeds` URL list (lines 98-104): split on `'|'`, trim,
drop empty segments, then normalize googlesheet URLs. -/
def fetchFeedsUrls (feedUrls : String) : List String :=
  (nonEmptySegments feedUrls).map fun url =>
    if detectFeedType url = "googlesheet" then processGoogleSheetUrl url else url

/-- Setting a key absent from the map appends it. -/
theorem objSet_of_not_mem (m : List (String × String)) (k v : String)
    (h : ∀ p ∈ m, p.1 ≠ k) : objSet m k v = m ++ [(k, v)] := by
  have hany : m.any (fun p => p.1 = k) = false := by
    simp only [List.any_eq_false, decide_eq_true_eq]
    exact h
  simp [objSet, hany]

/-- The `buildFeedMap` fold over segments with pairwise-distinct accepted
keys, generalized over the accumulator. -/
theorem buildFeedMapSegs_go (segs : List String) (acc : List (String × String))
    (hd : ∀ p ∈ segs.filterMap segKeyUrl, ∀ q ∈ acc, q.1 ≠ p.1)
    (hnd : ((segs.filterMap segKeyUrl).map Prod.fst).Nodup) :
    segs.foldl
      (fun acc entry =>
        match segKeyUrl entry with
        | some (k, v) => objSet acc k v
        | none => acc) acc = acc ++ segs.filterMap segKeyUrl := by
  induction segs generalizing acc with
  | nil => simp
  | cons seg rest ih =>
    cases hseg : segKeyUrl seg with
    | none =>
      have hfm : (seg :: rest).filterMap segKeyUrl = rest.filterMap segKeyUrl := by
        simp [List.filterMap_cons, hseg]
      rw [hfm] at hd hnd ⊢
      simp only [List.foldl_cons, hseg]
      exact ih acc hd hnd
    | some kv =>
      obtain ⟨k, v⟩ := kv
      have hfm : (seg :: rest).filterMap segKeyUrl = (k, v) :: rest.filterMap segKeyUrl := by
        simp [List.filterMap_cons, hseg]
      rw [hfm] at hd hnd ⊢
      have hnd' : (k :: (rest.filterMap segKeyUrl).map Prod.fst).Nodup := by
        simpa using hnd
      have hknotin : k ∉ (rest.filterMap segKeyUrl).map Prod.fst :=
        (List.nodup_cons.mp hnd').1
      have hstep : objSet acc k v = acc ++ [(k, v)] :=
        objSet_of_not_mem acc k v fun q hq =>
          hd (k, v) (List.mem_cons_self _ _) q hq
      simp only [List.foldl_cons, hseg, hstep]
      rw [ih (acc ++ [(k, v)])]
      · simp
      · intro p hp q hq
        rcases List.mem_append.mp hq with hq | hq
        · exact hd p (List.mem_cons_of_mem _ hp) q hq
        · have hqkv : q = (k, v) := by simpa using hq
          subst hqkv
          intro hcontra
          apply hknotin
          have hk : k = p.1 := hcontra
          rw [hk]
          exact List.mem_map_of_mem Prod.fst hp
      · exact (List.nodup_cons.mp hnd').2

/-- C5 counterexample: a bare-URL segment (no `=`) is dropped by
part_003's `buildFeedMap`, so its key count is 0 while the spec string has
one non-empty pipe-segment — the claim's "accepts each remaining segment
either as key=url or as a bare url" and "key count equals the number of
non-empty pipe-segments" fail on the code. -/
theorem buildFeedMap_drops_bare_url_segments :
    nonEmptySegments "https://api.nasa.gov/planetary/apod" =
      ["https://api.nasa.gov/planetary/apod"] ∧
    buildFeedMap "https://api.nasa.gov/planetary/apod" = [] ∧
    (0 : Nat) ≠ 1 := by
  refine ⟨by decide, by decide, by decide⟩

/-- C5 amended: `buildFeedMap` splits on the pipe character but accepts
only `key=url` segments whose key and url parts are both non-empty —
bare-url segments contribute no entry.  When the accepted segments'
trimmed keys are pairwise distinct, the resulting map lists exactly the
accepted segments' (trimmed) pairs in original insertion order, so the key
count equals the number of accepted segments; part_000's loader instead
accepts bare URLs, and its URL count always equals the number of non-empty
pipe-segments. -/
theorem buildFeedMap_accepted_segments (segs : List String)
    (hnd : ((segs.filterMap segKeyUrl).map Prod.fst).Nodup) :
    buildFeedMapSegs segs = segs.filterMap segKeyUrl ∧
    (buildFeedMapSegs segs).length = (segs.filterMap segKeyUrl).length ∧
    (buildFeedMapSegs segs).map Prod.fst = (segs.filterMap segKeyUrl).map Prod.fst ∧
    ∀ s : String, (fetchFeedsUrls s).length = (nonEmptySegments s).length := by
  have h : buildFeedMapSegs segs = segs.filterMap segKeyUrl := by
    have := buildFeedMapSegs_go segs [] (by intro p _ q hq; simp at hq) hnd
    simpa [buildFeedMapSegs] using this
  exact ⟨h, by rw [h], by rw [h], fun s => by simp [fetchFeedsUrls]⟩

/-- C5 witness: two explicitly named feeds. -/
theorem buildFeedMap_accepted_segments_witness :
    buildFeedMapSegs ["nasa=https://api.nasa.gov/apod", "scf=https://seeclickfix.com/api"] =
      [("nasa", "https://api.nasa.gov/apod"), ("scf", "https://seeclickfix.com/api")] := by
  have h := buildFeedMap_accepted_segments
    ["nasa=https://api.nasa.gov/apod", "scf=https://seeclickfix.com/api"] (by decide)
  rw [h.1]
  decide

/-- C6: spreadsheet-URL normalization: a URL already in an accepted
CSV-export form (containing `/pub?` or `/gviz/tq?`) passes through
unchanged; otherwise, when the `/d/<id>` pattern yields a non-empty
document id, the URL is rewritten to the canonical gviz CSV-export form;
and when no id can be extracted the URL is returned unchanged (the
function is total — it never throws). -/
theorem processGoogleSheetUrl_cases (url : String) :
    ((jsIncludes url "/pub?" || jsIncludes url "/gviz/tq?") = true →
      processGoogleSheetUrl url = url) ∧
    (∀ id : String, (jsIncludes url "/pub?" || jsIncludes url "/gviz/tq?") = false →
      sheetIdOf url = some id → id ≠ "" →
      processGoogleSheetUrl url =
        "https://docs.google.com/spreadsheets/d/" ++ id ++ "/gviz/tq?tqx=out:csv") ∧
    ((jsIncludes url "/pub?" || jsIncludes url "/gviz/tq?") = false →
      (sheetIdOf url = none ∨ sheetIdOf url = some "") →
      processGoogleSheetUrl url = url) := by
  refine ⟨fun h => by simp [processGoogleSheetUrl, h], ?_, ?_⟩
  · intro id hform hid hne
    simp [processGoogleSheetUrl, hform, hid, hne]
  · intro hform hid
    rcases hid with hid | hid <;> simp [processGoogleSheetUrl, hform, hid]

/-- C6 witness: the three branches at concrete URLs — an edit-view URL is
rewritten, a published-CSV URL passes through, and a URL with no `/d/`
pattern is returned unchanged. -/
theorem processGoogleSheetUrl_cases_witness :
    processGoogleSheetUrl "https://docs.google.com/spreadsheets/d/ABC123/edit" =
      "https://docs.google.com/spreadsheets/d/ABC123/gviz/tq?tqx=out:csv" ∧
    processGoogleSheetUrl "https://docs.google.com/spreadsheets/d/e/XYZ/pub?output=csv" =
      "https://docs.google.com/spreadsheets/d/e/XYZ/pub?output=csv" ∧
    processGoogleSheetUrl "https://example.com/data.csv" = "https://example.com/data.csv" := by
  refine ⟨?_, ?_, ?_⟩
  · have h := (processGoogleSheetUrl_cases "https://docs.google.com/spreadsheets/d/ABC123/edit").2.1
    exact h "ABC123" (by decide) (by decide) (by decide)
  · have h := (processGoogleSheetUrl_cases "https://docs.google.com/spreadsheets/d/e/XYZ/pub?output=csv").1
    exact h (by decide)
  · have h := (processGoogleSheetUrl_cases "https://example.com/data.csv").2.2
    exact h (by decide) (Or.inl (by decide))

/-! ### C7: the spreadsheet-CSV adapter
(part_000 `fetchFeeds` googlesheet case, lines 135-145) -/

/-- Generic form of the JS `forEach`/`reduce` loops that assign fields into
a fresh object: with pairwise-distinct keys the result lists the assigned
pairs in order after the initial accumulator. -/
theorem foldl_objSet_go {α : Type} (F G : α → String) (l : List α)
    (acc : List (String × String))
    (hd : ∀ p ∈ l, ∀ q ∈ acc, q.1 ≠ F p) (hnd : (l.map F).Nodup) :
    l.foldl (fun m p => objSet m (F p) (G p)) acc = acc ++ l.map fun p => (F p, G p) := by
  induction l generalizing acc with
  | nil => simp
  | cons p rest ih =>
    have hnd' : (F p :: rest.map F).Nodup := by simpa using hnd
    have hstep : objSet acc (F p) (G p) = acc ++ [(F p, G p)] :=
      objSet_of_not_mem acc (F p) (G p) fun q hq => hd p (List.mem_cons_self _ _) q hq
    simp only [List.foldl_cons, hstep]
    rw [ih (acc ++ [(F p, G p)])]
    · simp
    · intro r hr q hq
      rcases List.mem_append.mp hq with hq | hq
      · exact hd r (List.mem_cons_of_mem _ hr) q hq
      · have hqp : q = (F p, G p) := by simpa using hq
        subst hqp
        intro hcontra
        have hk : F p = F r := hcontra
        have hmem : F r ∈ rest.map F := List.mem_map_of_mem F hr
        rw [← hk] at hmem
        exact (List.nodup_cons.mp hnd').1 hmem
    · exact (List.nodup_cons.mp hnd').2

/-- With pairwise-distinct keys, a pair in the map is what `getParam`
returns for its key. -/
theorem getParam_of_mem_nodup (ps : List (String × String)) (k v : String)
    (hnd : (ps.map Prod.fst).Nodup) (hmem : (k, v) ∈ ps) : getParam ps k = some v := by
  induction ps with
  | nil => simp at hmem
  | cons q rest ih =>
    obtain ⟨k', v'⟩ := q
    have hnd' : (k' :: rest.map Prod.fst).Nodup := by simpa using hnd
    rcases List.mem_cons.mp hmem with hq | hq
    · obtain ⟨hk, hv⟩ := Prod.mk.injEq .. ▸ hq
      simp [getParam, hk.symm, hv]
    · by_cases hk : k' = k
      · exfalso
        apply (List.nodup_cons.mp hnd').1
        have : k ∈ rest.map Prod.fst := by
          have := List.mem_map_of_mem Prod.fst hq
          simpa using this
        rwa [hk]
      · simp only [getParam, if_neg hk]
        exact ih (List.nodup_cons.mp hnd').2 hq

/-- part_000 googlesheet case, inner `forEach`: zip one CSV data row
against the trimmed headers; a missing or blank cell becomes `""`
(`row[index]?.trim() || ''`). -/
def zipRowWithHeaders (headers row : List String) : List (String × String) :=
  headers.enum.foldl
    (fun item hi => objSet item (jsTrim hi.2) ((row[hi.1]?.map jsTrim).getD "")) []

/-- part_000 googlesheet case: split the body into lines, split each line
on commas, take the first row as headers and zip every later row against
them. -/
def csvItems (data : String) : List (List (String × String)) :=
  match (jsSplitChar '\n' data).map (jsSplitChar ',') with
  | [] => []
  | headers :: rest => rest.map (zipRowWithHeaders headers)

/-- part_000 `processFeedItem` default case with an empty `feedFields`
allowlist (the branch the googlesheet path takes):
`Object.assign({ source: sourceUrl }, item)`. -/
def processFeedItemDefault (sourceUrl : String)
    (fields : List (String × String)) : List (String × String) :=
  fields.foldl (fun acc p => objSet acc p.1 p.2) [("source", sourceUrl)]

/-- The googlesheet case end to end: parse the CSV body and normalize each
row item. -/
def googlesheetCaseItems (data sourceUrl : String) : List (List (String × String)) :=
  (csvItems data).map (processFeedItemDefault sourceUrl)

/-- C7: the spreadsheet-csv adapter zips each line after the first against
the naively comma-split headers; a cell missing at a header's index yields
the empty string for that header (given distinct trimmed headers, so the
open field map is well-defined), and the two-row scenario body yields
exactly two items with titles "A" and "B". -/
theorem googlesheet_csv_spec (headers row : List String) (i : Nat)
    (hi : i < headers.length) (hnd : (headers.map jsTrim).Nodup)
    (hrow : row.length ≤ i) :
    getParam (zipRowWithHeaders headers row) (jsTrim (headers.get ⟨i, hi⟩)) = some "" ∧
    googlesheetCaseItems "title,url\nA,http://img/a.jpg\nB,http://img/b.jpg"
        "https://sheet.example" =
      [[("source", "https://sheet.example"), ("title", "A"), ("url", "http://img/a.jpg")],
       [("source", "https://sheet.example"), ("title", "B"), ("url", "http://img/b.jpg")]] := by
  constructor
  · have hndenum : (headers.enum.map fun hi => jsTrim hi.2).Nodup := by
      have : (headers.enum.map fun hi : Nat × String => jsTrim hi.2) =
          headers.map jsTrim := by
        rw [show (fun hi : Nat × String => jsTrim hi.2) = jsTrim ∘ Prod.snd from rfl,
          ← List.map_map, List.enum_map_snd]
      rwa [this]
    have hzip : zipRowWithHeaders headers row =
        headers.enum.map fun hi => (jsTrim hi.2, (row[hi.1]?.map jsTrim).getD "") := by
      have := foldl_objSet_go (fun hi : Nat × String => jsTrim hi.2)
        (fun hi : Nat × String => (row[hi.1]?.map jsTrim).getD "") headers.enum []
        (by intro p _ q hq; simp at hq) hndenum
      simpa [zipRowWithHeaders] using this
    rw [hzip]
    apply getParam_of_mem_nodup
    · have : ((headers.enum.map fun hi =>
          (jsTrim hi.2, (row[hi.1]?.map jsTrim).getD "")).map Prod.fst) =
          headers.enum.map fun hi => jsTrim hi.2 := by
        rw [List.map_map]; rfl
      rw [this]
      exact hndenum
    · have hienum : i < headers.enum.length := by simpa using hi
      have helem : headers.enum.get ⟨i, hienum⟩ = (i, headers.get ⟨i, hi⟩) := by
        simp [List.getElem_enum]
      have hmem : (i, headers.get ⟨i, hi⟩) ∈ headers.enum := by
        rw [← helem]; exact List.get_mem _ _ _
      have hnone : row[i]? = none := by
        exact List.getElem?_eq_none hrow
      have := List.mem_map_of_mem
        (fun hi => (jsTrim hi.2, (row[hi.1]?.map jsTrim).getD "")) hmem
      simpa [hnone] using this
  · decide

/-- C7 witness: a two-column header row zipped against a one-cell data row
gives the empty string for the second column. -/
theorem googlesheet_csv_spec_witness :
    getParam (zipRowWithHeaders ["title", "url"] ["A"]) (jsTrim "url") = some "" := by
  have h := googlesheet_csv_spec ["title", "url"] ["A"] 1 (by decide) (by decide) (by decide)
  exact h.1

/-! ### C8: the hash router
(Context.jsx `updateURLHash` / `parseHash`: the variant at lines 873-897
rebuilds the fragment while copying over every parameter other than `feed`
and `ref`; the variant at lines 68-80 overwrites the whole fragment.

The fragment is modelled as its ordered list of `key=value` parameters;
`URLSearchParams.get` is `getParam`, and `URLSearchParams.set` — which
overwrites the first occurrence of the key and deletes the others, else
appends — is `setParam`.) -/

/-- Model of `URLSearchParams.set`. -/
def setParam (ps : List (String × String)) (k v : String) : List (String × String) :=
  match ps with
  | [] => [(k, v)]
  | (k', v') :: rest =>
    if k' = k then (k, v) :: rest.filter (fun p => p.1 != k)
    else (k', v') :: setParam rest k v

/-- Context.jsx `updateURLHash`, lines 873-888: copy every existing
parameter other than `feed` and `ref` into `otherParams`, then write
`#feed=<feed>&ref=<ref>` followed by `otherParams`. -/
def updateURLHash (frag : List (String × String)) (feed : String) (ref : Nat) :
    List (String × String) :=
  ("feed", feed) :: ("ref", natToDecimal ref) ::
    (frag.filter fun p => p.1 != "feed" && p.1 != "ref").foldl
      (fun acc p => setParam acc p.1 p.2) []

/-- Context.jsx `updateURLHash`, lines 68-71: the whole fragment is
replaced by `#feed=<feed>&ref=<ref>`. -/
def updateURLHashV1 (_frag : List (String × String)) (feed : String) (ref : Nat) :
    List (String × String) :=
  [("feed", feed), ("ref", natToDecimal ref)]

/-- Context.jsx `parseHash`:
`{ feed: params.get("feed") || "", ref: parseInt(params.get("ref"), 10) || 0 }`. -/
def parseHash (frag : List (String × String)) : String × Nat :=
  ((getParam frag "feed").getD "", parseIntOr0 (getParam frag "ref"))

/-- Setting a key absent from the parameter list appends it. -/
theorem setParam_of_not_mem (ps : List (String × String)) (k v : String)
    (h : ∀ p ∈ ps, p.1 ≠ k) : setParam ps k v = ps ++ [(k, v)] := by
  induction ps with
  | nil => rfl
  | cons q rest ih =>
    obtain ⟨k', v'⟩ := q
    have hk : k' ≠ k := h (k', v') (List.mem_cons_self _ _)
    simp only [setParam, if_neg hk, List.cons_append]
    rw [ih fun p hp => h p (List.mem_cons_of_mem _ hp)]

/-- Re-adding a list of parameters with pairwise-distinct keys with
`URLSearchParams.set` reproduces the list. -/
theorem foldl_setParam_go (ps acc : List (String × String))
    (hd : ∀ p ∈ ps, ∀ q ∈ acc, q.1 ≠ p.1) (hnd : (ps.map Prod.fst).Nodup) :
    ps.foldl (fun acc p => setParam acc p.1 p.2) acc = acc ++ ps := by
  induction ps generalizing acc with
  | nil => simp
  | cons p rest ih =>
    obtain ⟨k, v⟩ := p
    have hnd' : (k :: rest.map Prod.fst).Nodup := by simpa using hnd
    have hstep : setParam acc k v = acc ++ [(k, v)] :=
      setParam_of_not_mem acc k v fun q hq => hd (k, v) (List.mem_cons_self _ _) q hq
    simp only [List.foldl_cons, hstep]
    rw [ih (acc ++ [(k, v)])]
    · simp
    · intro r hr q hq
      rcases List.mem_append.mp hq with hq | hq
      · exact hd r (List.mem_cons_of_mem _ hr) q hq
      · have hqkv : q = (k, v) := by simpa using hq
        subst hqkv
        intro hcontra
        have hk2 : k = r.1 := hcontra
        apply (List.nodup_cons.mp hnd').1
        rw [hk2]
        exact List.mem_map_of_mem Prod.fst hr
    · exact (List.nodup_cons.mp hnd').2

/-- Filtering out the `feed` and `ref` parameters does not change the
lookup of any other key. -/
theorem getParam_filter_other (ps : List (String × String)) (k : String)
    (h1 : k ≠ "feed") (h2 : k ≠ "ref") :
    getParam (ps.filter fun p => p.1 != "feed" && p.1 != "ref") k = getParam ps k := by
  induction ps with
  | nil => rfl
  | cons q rest ih =>
    obtain ⟨k', v'⟩ := q
    by_cases hk : k' = k
    · subst hk
      have hkeep : (k' != "feed" && k' != "ref") = true := by
        simp [bne_iff_ne, h1, h2]
      simp [List.filter_cons, hkeep, getParam]
    · by_cases hkeep : (k' != "feed" && k' != "ref") = true
      · simp only [List.filter_cons, hkeep, if_true, getParam, if_neg hk]
        exact ih
      · simp only [List.filter_cons, hkeep, if_false, getParam, if_neg hk]
        exact ih


/-- C8 counterexample: the Context.jsx variant of `updateURLHash` at lines
68-71 overwrites the whole fragment, so a pre-existing unrelated parameter
`other=keep` is gone after the update — the claim's "for every hash update
the router performs" fails on this cited variant. -/
theorem updateURLHashV1_discards_other_params :
    getParam [("other", "keep"), ("feed", "a"), ("ref", "0")] "other" = some "keep" ∧
    getParam (updateURLHashV1 [("other", "keep"), ("feed", "a"), ("ref", "0")] "b" 3)
      "other" = none := by
  refine ⟨by decide, by decide⟩

/-- C8 amended: for the `updateURLHash` variant at lines 873-888 the claim
holds — on a fragment with pairwise-distinct parameter keys, every
parameter other than `feed` and `ref` is still present with its value
unchanged after the update, and parsing the fragment back yields exactly
the (feed key, index) pair that was written; the variant at lines 68-71
instead replaces the whole fragment, dropping unrelated parameters. -/
theorem updateURLHash_preserves_params (frag : List (String × String))
    (feed : String) (ref : Nat) (hnd : (frag.map Prod.fst).Nodup) :
    parseHash (updateURLHash frag feed ref) = (feed, ref) ∧
    ∀ k, k ≠ "feed" → k ≠ "ref" →
      getParam (updateURLHash frag feed ref) k = getParam frag k := by
  have hother :
      (frag.filter fun p => p.1 != "feed" && p.1 != "ref").foldl
        (fun acc p => setParam acc p.1 p.2) [] =
        frag.filter fun p => p.1 != "feed" && p.1 != "ref" := by
    have hsub : ((frag.filter fun p => p.1 != "feed" && p.1 != "ref").map Prod.fst).Nodup := by
      refine List.Nodup.sublist ?_ hnd
      exact (List.filter_sublist frag).map Prod.fst
    have := foldl_setParam_go (frag.filter fun p => p.1 != "feed" && p.1 != "ref") []
      (by intro p _ q hq; simp at hq) hsub
    simpa using this
  constructor
  · have hfeed : getParam (updateURLHash frag feed ref) "feed" = some feed := by
      simp [updateURLHash, getParam]
    have href : getParam (updateURLHash frag feed ref) "ref" = some (natToDecimal ref) := by
      simp [updateURLHash, getParam]
    simp [parseHash, hfeed, href, parseIntOr0, parseDecimal_natToDecimal]
  · intro k hk1 hk2
    have hne1 : ¬("feed" = k) := fun h => hk1 h.symm
    have hne2 : ¬("ref" = k) := fun h => hk2 h.symm
    simp only [updateURLHash, getParam, if_neg hne1, if_neg hne2, hother]
    exact getParam_filter_other frag k hk1 hk2

/-- C8 witness: updating a fragment holding one unrelated parameter. -/
theorem updateURLHash_preserves_params_witness :
    parseHash (updateURLHash [("other", "keep")] "keyA" 3) = ("keyA", 3) ∧
    getParam (updateURLHash [("other", "keep")] "keyA" 3) "other" =
      getParam [("other", "keep")] "other" := by
  have h := updateURLHash_preserves_params [("other", "keep")] "keyA" 3 (by decide)
  exact ⟨h.1, h.2 "other" (by decide) (by decide)⟩

/-! ### C9: seek-to-index
(Context.jsx `moveToSlide`, lines 398-403 and 1339-1344, and
`handleProgressBarClick`, lines 385-396 and 1326-1337) -/

/-- `moveToSlide`: `setCurrentMediaIndex(() => index)` — the requested
index is applied unchanged, with no bounds check. -/
def moveToSlide (index : Int) : Int := index

/-- `handleProgressBarClick`: the click fraction `clickX / progressWidth`
(in `[0, 1]` for clicks inside the bar; modelled as a rational) is scaled
by `totalSlides = selectedMediaList.length < 7 ? selectedMediaList.length : 7`
and floored to get the target slide. -/
def handleProgressBarClick (selectedMediaListLength : Nat) (clickFrac : ℚ) : Int :=
  let totalSlides : Nat :=
    if selectedMediaListLength < 7 then selectedMediaListLength else 7
  ⌊clickFrac * totalSlides⌋

/-- C9 counterexample: with a 5-item feed, a click at the far right of the
progress bar (fraction 1) computes target slide 5 and `moveToSlide`
applies it unchanged — index 5 is neither rejected nor clamped although
the valid range is `[0, 5)`; a negative index is applied unchanged too. -/
theorem moveToSlide_accepts_out_of_range :
    handleProgressBarClick 5 1 = 5 ∧
    moveToSlide (handleProgressBarClick 5 1) = 5 ∧
    ¬(moveToSlide (handleProgressBarClick 5 1) < 5) ∧
    moveToSlide (-1) = -1 := by
  norm_num [handleProgressBarClick, moveToSlide]

/-- C9 amended: `moveToSlide` applies the requested index unchanged —
out-of-range indices are not rejected or clamped (the claimed invariant
does not hold; a far-right progress-bar click on a feed of at most 7
items yields index = item count, one past the end).  What does hold:
for a click fraction in `[0, 1]`, `handleProgressBarClick` produces an
index in `[0, min(item count, 7)]`. -/
theorem seek_to_index_unclamped (i : Int) (len : Nat) (q : ℚ)
    (h0 : 0 ≤ q) (h1 : q ≤ 1) :
    moveToSlide i = i ∧
    0 ≤ handleProgressBarClick len q ∧
    handleProgressBarClick len q ≤ ((min len 7 : Nat) : Int) := by
  have hcap : (if len < 7 then len else 7) = min len 7 := by
    split <;> omega
  have hup : handleProgressBarClick len q = ⌊q * ((min len 7 : Nat) : ℚ)⌋ := by
    simp only [handleProgressBarClick]
    rw [hcap]
  refine ⟨rfl, ?_, ?_⟩
  · rw [hup]
    apply Int.le_floor.mpr
    have hnn : (0 : ℚ) ≤ q * ((min len 7 : Nat) : ℚ) :=
      mul_nonneg h0 (Nat.cast_nonneg _)
    exact_mod_cast hnn
  · rw [hup]
    calc ⌊q * (min len 7 : Nat)⌋ ≤ ⌊((min len 7 : Nat) : ℚ)⌋ := by
          apply Int.floor_le_floor
          calc q * (min len 7 : Nat) ≤ 1 * (min len 7 : Nat) :=
                mul_le_mul_of_nonneg_right h1 (Nat.cast_nonneg _)
            _ = ((min len 7 : Nat) : ℚ) := one_mul _
      _ = ((min len 7 : Nat) : Int) := Int.floor_natCast _

/-- C9 witness: a mid-bar click on a 5-item feed. -/
theorem seek_to_index_unclamped_witness :
    moveToSlide 2 = 2 ∧
    0 ≤ handleProgressBarClick 5 (1 / 2) ∧
    handleProgressBarClick 5 (1 / 2) ≤ ((min 5 7 : Nat) : Int) := by
  exact seek_to_index_unclamped 2 5 (1 / 2) (by norm_num) (by norm_num)

/-! ### C10: the card-grid SeeClickFix fetch path
(src/src/components/FeedPlayer.jsx `fetchFeeds`, lines 27-57) -/

/-- Coordinate substitution (FeedPlayer.jsx lines 31-34):
`localStorage.getItem("latitude") || "41.307"` and
`localStorage.getItem("longitude") || "-72.925"` substituted for the
placeholder tokens with `String.prototype.replace`. -/
def substituteLatLon (url : String) (latStored lonStored : Option String) : String :=
  jsReplaceFirst
    (jsReplaceFirst url "\x7blatitude\x7d" (jsOrDefault latStored "41.307"))
    "\x7blongitude\x7d" (jsOrDefault lonStored "-72.925")

/-- The filter condition of FeedPlayer.jsx lines 41-46: the issue has a
`media` object with a truthy `image_full` or `representative_image_url`. -/
def hasMediaImage (item : ScfIssue) : Bool :=
  match item.media with
  | none => false
  | some m => strTruthy (jsOrStr m.image_full m.representative_image_url)

/-- FeedPlayer.jsx per-URL fetch path: substitute coordinates into
SeeClickFix URLs, unwrap `response.data.issues || response.data` (a
present `issues` array is truthy even when empty), and for SeeClickFix
URLs keep only the issues that have a media image, truncated to the first
5 (`.slice(0, 5)`). -/
def gridFetchUrlItems (url : String) (latStored lonStored : Option String)
    (respIssues : Option (List ScfIssue)) (respData : List ScfIssue) : List ScfIssue :=
  let apiUrl :=
    if jsIncludes url "seeclickfix.com" then substituteLatLon url latStored lonStored
    else url
  let data :=
    match respIssues with
    | some issues => issues
    | none => respData
  if jsIncludes apiUrl "seeclickfix.com" then (data.filter hasMediaImage).take 5
  else data

/-- C10: for a successful SeeClickFix response the per-URL result is
exactly the image-possessing issues truncated to the first 5: every
resulting item has a media image, at most 5 items result, an issue without
an image never appears, and with no stored coordinates the placeholders
are substituted with the fixed defaults 41.307 and -72.925. -/
theorem grid_seeclickfix_filter_truncate (url : String)
    (latStored lonStored : Option String) (issues respData : List ScfIssue)
    (hurl : jsIncludes url "seeclickfix.com" = true)
    (hsub : jsIncludes (substituteLatLon url latStored lonStored) "seeclickfix.com" = true) :
    gridFetchUrlItems url latStored lonStored (some issues) respData =
      (issues.filter hasMediaImage).take 5 ∧
    (∀ item ∈ gridFetchUrlItems url latStored lonStored (some issues) respData,
      hasMediaImage item = true) ∧
    (gridFetchUrlItems url latStored lonStored (some issues) respData).length ≤ 5 ∧
    (∀ item ∈ issues, hasMediaImage item = false →
      item ∉ gridFetchUrlItems url latStored lonStored (some issues) respData) ∧
    substituteLatLon url none none =
      jsReplaceFirst (jsReplaceFirst url "\x7blatitude\x7d" "41.307")
        "\x7blongitude\x7d" "-72.925" := by
  have heq : gridFetchUrlItems url latStored lonStored (some issues) respData =
      (issues.filter hasMediaImage).take 5 := by
    simp [gridFetchUrlItems, hurl, hsub]
  refine ⟨heq, ?_, ?_, ?_, rfl⟩
  · intro item hitem
    rw [heq] at hitem
    exact (List.mem_filter.mp (List.take_subset _ _ hitem)).2
  · rw [heq]
    exact List.length_take_le 5 _
  · intro item _ hfalse hcontra
    rw [heq] at hcontra
    have := (List.mem_filter.mp (List.take_subset _ _ hcontra)).2
    rw [hfalse] at this
    exact Bool.false_ne_true this

/-- C10 witness: a SeeClickFix URL with both placeholders and a response
holding one issue with an image and one without. -/
theorem grid_seeclickfix_filter_truncate_witness :
    gridFetchUrlItems
      "https://seeclickfix.com/api/v2/issues?lat=\x7blatitude\x7d&lng=\x7blongitude\x7d"
      none none
      (some [{ media := some { image_full := some "https://img.jpg" },
               summary := some "pothole" },
             { media := none, summary := some "no image" }]) [] =
      [{ media := some { image_full := some "https://img.jpg" },
         summary := some "pothole" }] := by
  have h := grid_seeclickfix_filter_truncate
    "https://seeclickfix.com/api/v2/issues?lat=\x7blatitude\x7d&lng=\x7blongitude\x7d"
    none none
    [{ media := some { image_full := some "https://img.jpg" }, summary := some "pothole" },
     { media := none, summary := some "no image" }] [] (by decide) (by decide)
  rw [h.1]
  decide

end Feed
